import Mathlib

/-!
Shallow embedding of the de-identification pipeline
(`pipeline_batch.py` and `pipeline_recover.py`).

Text is modelled as `List Char`.  External collaborators (the remote
redaction service, the remote transcription service, the face detector and
the Gaussian-blur primitive) are modelled as oracle functions supplied to
the embedded code; everything the repository itself computes (chunking,
recombination, the polling loop, result-shape dispatch, the per-frame loop
and the coordinator's control flow) is translated from the source.
-/

namespace DeidPoc

/-- Python slice `l[i : i + n]`: drop `i` elements, then take `n`. -/
def pySlice (l : List Char) (i n : Nat) : List Char := (l.drop i).take n

/-- Python `range(0, stop, step)` for `step > 0`: the multiples of `step`
below `stop`; it has `ceil(stop / step)` elements. -/
def pyRange (stop step : Nat) : List Nat :=
  (List.range ((stop + step - 1) / step)).map (fun k => k * step)

/-- The chunk list `[text[i : i + S] for i in range(0, len(text), S)]`
built by `redact_phi` in both `pipeline_batch.py` and `pipeline_recover.py`. -/
def chunkList (S : Nat) (text : List Char) : List (List Char) :=
  (pyRange text.length S).map (fun i => pySlice text i S)

/-- `chunk_size = 5000` in `redact_phi`. -/
def CHUNK_SIZE : Nat := 5000

/-- The remote redaction collaborator (`client.deidentify_text`): for a chunk
it either returns the redacted text or raises. -/
abbrev RedactOracle := List Char → Except Unit (List Char)

/-- `redact_phi(text, endpoint)`: chunk the text at `CHUNK_SIZE`, send each
chunk to the collaborator in order, and join the redacted chunks with
`"".join`.  The single `try/except` wraps the whole loop, so the first
collaborator exception abandons all accumulated redacted chunks and the
function returns the original `text`.  (Client construction is collaborator
setup and is absorbed into the oracle.) -/
def redact_phi (oracle : RedactOracle) (text : List Char) : List Char :=
  match (chunkList CHUNK_SIZE text).mapM oracle with
  | .ok redacted_chunks => redacted_chunks.flatten
  | .error _ => text

/-! ### Transcription job controller (`submit_transcription_job` / `wait_for_transcript`) -/

/-- Status field of a polled transcription job.  Any status other than
`Succeeded` / `Failed` keeps the polling loop running, so all such values are
lumped into `running`. -/
inductive JobStatus
  | running
  | succeeded
  | failed
deriving DecidableEq

/-- An uncaught Python exception. -/
inductive Crash
  | keyError
  | indexError
  | missingSchema
deriving DecidableEq

/-- One element of `data["combinedRecognizedPhrases"]`, as a dictionary:
the `display` key may be absent, and the `nBest` key may be absent; each
`nBest` element's own `display` key may in turn be absent. -/
structure Phrase where
  display : Option (List Char)
  nBest : Option (List (Option (List Char)))
deriving DecidableEq

/-- The JSON document fetched from a result file's `contentUrl`; the
`combinedRecognizedPhrases` key may be absent. -/
structure TranscriptData where
  combinedRecognizedPhrases : Option (List Phrase)
deriving DecidableEq

/-- One entry of the result manifest's `values` list: its `kind` and the
document behind its `links.contentUrl`. -/
structure FileInfo where
  kind : List Char
  content : TranscriptData
deriving DecidableEq

/-- The remote job as observed through polling: the statuses returned by the
successive `GET job_url` calls, and the result-manifest entries served once
the job has succeeded. -/
structure JobRemote where
  statuses : List JobStatus
  files : List FileInfo
deriving DecidableEq

def transcriptionKind : List Char := "Transcription".toList

/-- `phrase["display"]`: raises `KeyError` when the key is absent. -/
def extract_display (p : Phrase) : Except Crash (List Char) :=
  match p.display with
  | some d => .ok d
  | none => .error .keyError

/-- `p["nBest"][0]["display"]` from `pipeline_recover.main`: each lookup can
raise (`KeyError` on a missing key, `IndexError` on an empty `nBest` list). -/
def extract_nbest_display (p : Phrase) : Except Crash (List Char) :=
  match p.nBest with
  | none => .error .keyError
  | some [] => .error .indexError
  | some (none :: _) => .error .keyError
  | some (some d :: _) => .ok d

/-- `" ".join(l)`. -/
def joinSpaces (l : List (List Char)) : List Char := List.intercalate [' '] l

/-- The `while True` polling loop: keep polling while the status is
non-terminal; report which terminal status, if any, is ever observed. -/
inductive WaitOutcome
  | hang
  | succeeded
  | failed
deriving DecidableEq

def firstTerminal : List JobStatus → WaitOutcome
  | [] => .hang
  | .running :: rest => firstTerminal rest
  | .succeeded :: _ => .succeeded
  | .failed :: _ => .failed

/-- The `for file_info in files` loop: the first entry whose `kind` is
`"Transcription"` is processed; with no such entry the function returns
`None`. -/
def findTranscriptionFile : List FileInfo → Option TranscriptData
  | [] => none
  | f :: rest =>
    if f.kind = transcriptionKind then some f.content else findTranscriptionFile rest

/-- `" ".join([phrase["display"] for phrase in data["combinedRecognizedPhrases"]])`
from `wait_for_transcript`: raises `KeyError` when the key `combinedRecognizedPhrases`
or any phrase's `display` key is absent. -/
def batchExtract (d : TranscriptData) : Except Crash (List Char) :=
  match d.combinedRecognizedPhrases with
  | none => .error .keyError
  | some ps =>
    match ps.mapM extract_display with
    | .ok ds => .ok (joinSpaces ds)
    | .error c => .error c

/-- Observable outcome of `wait_for_transcript`: an uncaught exception, a
never-ending polling loop, or a returned value (`None`, or the transcript). -/
inductive WaitResult
  | crash (c : Crash)
  | hang
  | result (t : Option (List Char))
deriving DecidableEq

/-- `wait_for_transcript(job_url, speech_key)`.  When `job_url` is `None`
(submission failed), the first `requests.get(job_url)` raises `MissingSchema`.
On `Failed` status the function returns `None`; on `Succeeded` it fetches the
manifest and extracts the transcript from the first `"Transcription"` entry. -/
def wait_for_transcript (job_url : Option JobRemote) : WaitResult :=
  match job_url with
  | none => .crash .missingSchema
  | some job =>
    match firstTerminal job.statuses with
    | .hang => .hang
    | .failed => .result none
    | .succeeded =>
      match findTranscriptionFile job.files with
      | none => .result none
      | some d =>
        match batchExtract d with
        | .ok t => .result (some t)
        | .error c => .crash c

/-- The fixed transcript-parsing logic of `pipeline_recover.main` (steps
"Parsing transcript"): dispatch on the shape of the first phrase.
`.ok none` models the early `return` (no `combinedRecognizedPhrases`, or
unknown structure); `.ok (some t)` models continuing with `full_text = t`
(note that an empty phrase list leaves `full_text = ""` and continues). -/
def recoverParse (d : TranscriptData) : Except Crash (Option (List Char)) :=
  match d.combinedRecognizedPhrases with
  | none => .ok none
  | some [] => .ok (some [])
  | some (first :: rest) =>
    match first.display with
    | some _ =>
      match (first :: rest).mapM extract_display with
      | .ok ds => .ok (some (joinSpaces ds))
      | .error c => .error c
    | none =>
      match first.nBest with
      | some _ =>
        match (first :: rest).mapM extract_nbest_display with
        | .ok ds => .ok (some (joinSpaces ds))
        | .error c => .error c
      | none => .ok none

/-- Shape A: a phrase carrying a flat `display` field. -/
def mkShapeA (d : List Char) : Phrase := ⟨some d, none⟩

/-- Shape B: a phrase carrying only a nested best-candidate list. -/
def mkShapeB (d : List Char) : Phrase := ⟨none, some [some d]⟩

/-- A phrase matching neither known shape. -/
def unknownPhrase : Phrase := ⟨none, none⟩

/-! ### Video redaction stage (`blur_faces`) -/

/-- An axis-aligned detected region `(x, y, w, h)`. -/
structure Region where
  x : Nat
  y : Nat
  w : Nat
  h : Nat
deriving DecidableEq

/-- A decoded frame's pixel buffer (the numeric type of the bytes is
immaterial to the claims). -/
abbrev Frame := List Nat

/-- The face-detection collaborator
(`cvtColor` + `face_cascade.detectMultiScale`): per-frame and stateless. -/
abbrev Detector := Frame → List Region

/-- The per-region obfuscation collaborator: extract the region of interest,
`GaussianBlur` it, and write it back into the frame. -/
abbrev BlurOp := Frame → Region → Frame

/-- The per-frame body of the read loop: apply the region obfuscation to each
detected region in turn, mutating the frame. -/
def processFrame (detect : Detector) (blurOp : BlurOp) (f : Frame) : Frame :=
  (detect f).foldl blurOp f

/-- The input video as seen through `cv2.VideoCapture`: whether it opens, its
properties, and the frames successive `cap.read()` calls yield. -/
structure InputVideo where
  opens : Bool
  width : Nat
  height : Nat
  fps : Nat
  frames : List Frame
deriving DecidableEq

/-- The output container written by `cv2.VideoWriter`. -/
structure OutputVideo where
  width : Nat
  height : Nat
  fps : Nat
  frames : List Frame
deriving DecidableEq

/-- `blur_faces(video_path, output_path)`: `None` when the capture does not
open; otherwise a writer configured with the capture's width, height and fps
receives exactly one processed frame per frame read. -/
def blur_faces (detect : Detector) (blurOp : BlurOp) (v : InputVideo) : Option OutputVideo :=
  if v.opens then
    some ⟨v.width, v.height, v.fps, v.frames.map (processFrame detect blurOp)⟩
  else
    none

/-! ### Pipeline coordinator (`main` of `pipeline_batch.py`) -/

/-- The collaborators and remote behaviour one pipeline run observes.
`submitOk` is the remote service's response to the submission POST
(`response.status_code == 201`); the audio upload's SAS URL feeds only this
collaborator and is absorbed into it. -/
structure PipelineEnv where
  credsOk : Bool
  acquire : Option InputVideo
  submitOk : Bool
  job : JobRemote
  detect : Detector
  blurOp : BlurOp
  redactOracle : RedactOracle

/-- How the run of `main` ended. -/
inductive RunOutcome
  | earlyReturn
  | completed
  | crashed (c : Crash)
  | hung
deriving DecidableEq

/-- The externally observable state of one run of `main`: how it ended,
whether the polling loop was entered, and which artifacts were written. -/
structure RunTrace where
  outcome : RunOutcome
  polled : Bool
  originalTranscript : Option (List Char)
  redactedTranscript : Option (List Char)
  blurredSilent : Option OutputVideo
  finalVideo : Option OutputVideo
deriving DecidableEq

/-- Step 6's `ffmpeg` merge: the video stream of the blurred silent file is
stream-copied into the final container; when the blurred file is absent the
silent `subprocess.run` (no `check=True`) fails without raising and no final
file appears. -/
def ffmpeg_merge (blurred : Option OutputVideo) : Option OutputVideo := blurred

/-- `main()` of `pipeline_batch.py`.  It returns early on missing credentials
or failed acquisition; otherwise it submits the transcription job, runs
`blur_faces` (its result only gates a print), then calls
`wait_for_transcript` — whose exceptions are uncaught — and, `if transcript:`
is truthy (non-`None` and non-empty), writes the original transcript, redacts
it and writes the redacted transcript, before attempting the final merge. -/
def pipeline_main (env : PipelineEnv) : RunTrace :=
  if env.credsOk = false then ⟨.earlyReturn, false, none, none, none, none⟩
  else
    match env.acquire with
    | none => ⟨.earlyReturn, false, none, none, none, none⟩
    | some video =>
      let job_url : Option JobRemote := if env.submitOk then some env.job else none
      let blurred := blur_faces env.detect env.blurOp video
      match wait_for_transcript job_url with
      | .crash c => ⟨.crashed c, job_url.isSome, none, none, blurred, none⟩
      | .hang => ⟨.hung, true, none, none, blurred, none⟩
      | .result t =>
        match t with
        | none => ⟨.completed, true, none, none, blurred, ffmpeg_merge blurred⟩
        | some tx =>
          if tx.isEmpty then ⟨.completed, true, none, none, blurred, ffmpeg_merge blurred⟩
          else
            ⟨.completed, true, some tx, some (redact_phi env.redactOracle tx), blurred,
              ffmpeg_merge blurred⟩

/-! ### Concrete instances used by counterexamples and witnesses -/

/-- A 5001-character text: its chunks at size 5000 are `replicate 5000 'a'`
and `['b']`. -/
def cRedactText : List Char := List.replicate 5000 'a' ++ ['b']

/-- A redaction collaborator that fails exactly on the chunk `['b']` and
redacts every other chunk to `'X'`s of the same length. -/
def cRedactOracle : RedactOracle :=
  fun c => if c = ['b'] then .error () else .ok (List.replicate c.length 'X')

/-- An always-successful identity redaction collaborator. -/
def cOkOracle : RedactOracle := fun c => .ok c

/-- A result-manifest entry of kind `"Transcription"` in shape A. -/
def cShapeAFile : FileInfo := ⟨transcriptionKind, ⟨some [mkShapeA "hi".toList]⟩⟩

/-- A result-manifest entry of kind `"Transcription"` in shape B. -/
def cShapeBFile : FileInfo := ⟨transcriptionKind, ⟨some [mkShapeB "hello".toList]⟩⟩

/-- A remote job observed as `Running, Running, Succeeded` with a shape-A
manifest. -/
def cJob : JobRemote := ⟨[.running, .running, .succeeded], [cShapeAFile]⟩

/-- A video file that cannot be opened. -/
def cBadVideo : InputVideo := ⟨false, 640, 480, 30, [[0]]⟩

/-- A readable two-frame video. -/
def cGoodVideo : InputVideo := ⟨true, 640, 480, 30, [[0], [1]]⟩

/-- A detector that finds no region in any frame. -/
def cDetector : Detector := fun _ => []

/-- A blur collaborator (identity; its behaviour is irrelevant when no region
is detected). -/
def cBlurOp : BlurOp := fun fr _ => fr

/-- A run in which everything succeeds except that the input video cannot be
opened. -/
def cEnvVideoFail : PipelineEnv := ⟨true, some cBadVideo, true, cJob, cDetector, cBlurOp, cOkOracle⟩

/-- A run in which acquisition and video redaction succeed but transcription
job submission fails (non-201 response). -/
def cEnvSubmitFail : PipelineEnv :=
  ⟨true, some cGoodVideo, false, cJob, cDetector, cBlurOp, cOkOracle⟩

/-! ### Helper lemmas -/

theorem exceptMapM_ok {ε α β : Type} (f : α → β) :
    ∀ l : List α, (l.mapM (fun a => (Except.ok (f a) : Except ε β))) = Except.ok (l.map f) := by
  intro l
  induction l with
  | nil => rfl
  | cons a t ih =>
    rw [List.mapM_cons, ih]
    rfl

theorem exceptMapM_error {ε α β : Type} (o : α → Except ε β) :
    ∀ l : List α, (∃ c ∈ l, ∃ e, o c = .error e) → ∃ e, l.mapM o = .error e := by
  intro l
  induction l with
  | nil =>
    rintro ⟨c, hc, _⟩
    exact absurd hc (List.not_mem_nil c)
  | cons a t ih =>
    rintro ⟨c, hc, e, he⟩
    rw [List.mapM_cons]
    cases ha : o a with
    | error ea =>
      exact ⟨ea, rfl⟩
    | ok b =>
      rcases List.mem_cons.mp hc with rfl | hct
      · rw [ha] at he
        exact absurd he (by simp)
      · rcases ih ⟨c, hct, e, he⟩ with ⟨e2, he2⟩
        rw [he2]
        exact ⟨e2, rfl⟩

theorem ceilDiv_rec (S n : Nat) (hS : 0 < S) (hn : 0 < n) :
    (n + S - 1) / S = (n - S + S - 1) / S + 1 := by
  by_cases h : n ≤ S
  · have h1 : n + S - 1 = (n - 1) + S := by omega
    have h3 : n - S = 0 := by omega
    rw [h1, Nat.add_div_right _ hS, Nat.div_eq_of_lt (by omega : n - 1 < S), h3,
      Nat.div_eq_of_lt (by omega : 0 + S - 1 < S)]
  · push_neg at h
    have h1 : n + S - 1 = (n - 1) + S := by omega
    have h2 : n - S + S - 1 = (n - S - 1) + S := by omega
    have h3 : n - 1 = (n - S - 1) + S := by omega
    rw [h1, h2, Nat.add_div_right _ hS, Nat.add_div_right _ hS, h3, Nat.add_div_right _ hS]

theorem chunkList_nil (S : Nat) (hS : 0 < S) : chunkList S [] = [] := by
  rw [chunkList, pyRange, List.length_nil, Nat.div_eq_of_lt (by omega : 0 + S - 1 < S)]
  rfl

theorem pyRange_cons (n S : Nat) (hS : 0 < S) (hn : 0 < n) :
    pyRange n S = 0 :: (pyRange (n - S) S).map (fun i => i + S) := by
  rw [pyRange, ceilDiv_rec S n hS hn, List.range_succ_eq_map, List.map_cons, pyRange,
    List.map_map, List.map_map]
  have hf : ((fun k => k * S) ∘ Nat.succ) = ((fun i => i + S) ∘ fun k => k * S) := by
    funext k
    simp [Function.comp, Nat.succ_mul]
  rw [hf, Nat.zero_mul]

theorem chunkList_cons (S : Nat) (hS : 0 < S) (text : List Char) (h : text ≠ []) :
    chunkList S text = text.take S :: chunkList S (text.drop S) := by
  have hn : 0 < text.length := List.length_pos.mpr h
  rw [chunkList, pyRange_cons text.length S hS hn, List.map_cons, List.map_map, chunkList,
    List.length_drop]
  simp only [pySlice, List.drop_zero]
  congr 1
  apply List.map_congr_left
  intro i _
  simp only [Function.comp, List.drop_drop]
  rw [Nat.add_comm S i]

theorem chunkList_flatten_aux (S : Nat) (hS : 0 < S) :
    ∀ (n : Nat) (text : List Char), text.length ≤ n → (chunkList S text).flatten = text := by
  intro n
  induction n with
  | zero =>
    intro text h
    have he : text = [] := List.eq_nil_of_length_eq_zero (by omega)
    rw [he, chunkList_nil S hS]
    rfl
  | succ n ih =>
    intro text h
    by_cases he : text = []
    · rw [he, chunkList_nil S hS]
      rfl
    · have hn : 0 < text.length := List.length_pos.mpr he
      rw [chunkList_cons S hS text he, List.flatten_cons,
        ih (text.drop S) (by rw [List.length_drop]; omega), List.take_append_drop]

theorem chunkList_length (S : Nat) (text : List Char) :
    (chunkList S text).length = (text.length + S - 1) / S := by
  rw [chunkList, List.length_map, pyRange, List.length_map, List.length_range]

theorem chunkList_get (S : Nat) (text : List Char) (i : Nat)
    (hi : i < (chunkList S text).length) :
    (chunkList S text).get ⟨i, hi⟩ = (text.drop (i * S)).take S := by
  have hi2 := hi
  rw [chunkList_length] at hi2
  rw [List.get_eq_getElem]
  simp only [chunkList, pyRange, List.getElem_map, List.getElem_range, pySlice]

theorem chunkList_index_lt (S : Nat) (text : List Char) (hS : 0 < S) (i : Nat)
    (hi : i < (chunkList S text).length) : i * S < text.length := by
  rw [chunkList_length] at hi
  have hn : 0 < text.length := by
    rcases Nat.eq_zero_or_pos text.length with h0 | h
    · rw [h0, Nat.div_eq_of_lt (by omega : 0 + S - 1 < S)] at hi
      omega
    · exact h
  have h1 : (i + 1) * S ≤ text.length + S - 1 :=
    (Nat.le_div_iff_mul_le hS).mp (by omega)
  rw [Nat.add_mul, Nat.one_mul] at h1
  have h2 : i * S + S ≤ text.length + S - 1 := h1
  generalize i * S = p at h2 ⊢
  omega

theorem chunkList_index_add_le (S : Nat) (text : List Char) (hS : 0 < S) (i : Nat)
    (hi : i + 1 < (chunkList S text).length) : i * S + S ≤ text.length := by
  rw [chunkList_length] at hi
  have h1 : (i + 2) * S ≤ text.length + S - 1 :=
    (Nat.le_div_iff_mul_le hS).mp (by omega)
  have h2 : i * S + 2 * S ≤ text.length + S - 1 := by
    rw [Nat.add_mul] at h1
    omega
  generalize i * S = p at h2 ⊢
  omega

theorem mapM_extract_display_shapeA :
    ∀ ds : List (List Char), (ds.map mkShapeA).mapM extract_display = .ok ds := by
  intro ds
  induction ds with
  | nil => rfl
  | cons d t ih =>
    rw [List.map_cons, List.mapM_cons, ih]
    rfl

theorem mapM_extract_nbest_shapeB :
    ∀ ds : List (List Char), (ds.map mkShapeB).mapM extract_nbest_display = .ok ds := by
  intro ds
  induction ds with
  | nil => rfl
  | cons d t ih =>
    rw [List.map_cons, List.mapM_cons, ih]
    rfl

theorem cRedactText_chunks :
    chunkList CHUNK_SIZE cRedactText = [List.replicate 5000 'a', ['b']] := by
  have hlen : cRedactText.length = 5001 := by
    rw [cRedactText, List.length_append, List.length_replicate]
    rfl
  have hr : pyRange 5001 5000 = [0, 5000] := by decide
  rw [chunkList, CHUNK_SIZE, hlen, hr, List.map_cons, List.map_cons, List.map_nil]
  rw [pySlice, pySlice, cRedactText, List.drop_zero,
    List.take_append_of_le_length (by rw [List.length_replicate]),
    List.take_replicate,
    List.drop_append_of_le_length (by rw [List.length_replicate]),
    List.drop_replicate]
  simp only [Nat.min_self, Nat.sub_self, List.replicate_zero, List.nil_append]
  constructor

theorem replicate_a_ne_b : List.replicate 5000 'a' ≠ (['b'] : List Char) := by
  intro h
  have hlen := congrArg List.length h
  rw [List.length_replicate, List.length_cons, List.length_nil] at hlen
  omega

theorem cRedactOracle_chunk0 :
    cRedactOracle (List.replicate 5000 'a') = .ok (List.replicate 5000 'X') := by
  rw [cRedactOracle, if_neg replicate_a_ne_b, List.length_replicate]

theorem cRedactOracle_chunk1 : cRedactOracle ['b'] = .error () := by
  rw [cRedactOracle, if_pos rfl]

theorem redact_phi_def (o : RedactOracle) (text : List Char) :
    redact_phi o text =
      match (chunkList CHUNK_SIZE text).mapM o with
      | .ok rcs => rcs.flatten
      | .error _ => text := rfl

theorem batchExtract_shapeA (ds : List (List Char)) :
    batchExtract ⟨some (ds.map mkShapeA)⟩ = .ok (joinSpaces ds) := by
  show (match (ds.map mkShapeA).mapM extract_display with
        | .ok ds2 => (Except.ok (joinSpaces ds2) : Except Crash (List Char))
        | .error c => .error c) = .ok (joinSpaces ds)
  rw [mapM_extract_display_shapeA]

/-! ### Claim theorems -/

/-- C5: for every text `T` and chunk size `S > 0`, recombining (`"".join`)
the chunks produced by splitting `T` at size `S` reconstructs `T` exactly;
empty input yields zero chunks, and recombining zero chunks yields the empty
text. -/
theorem C5_chunk_recombine_lossless (S : Nat) (text : List Char) (hS : 0 < S) :
    (chunkList S text).flatten = text ∧
    chunkList S [] = [] ∧
    ([] : List (List Char)).flatten = [] :=
  ⟨chunkList_flatten_aux S hS text.length text le_rfl, chunkList_nil S hS, rfl⟩

theorem C5_witness :
    0 < 3 ∧
    ((chunkList 3 "abcdefg".toList).flatten = "abcdefg".toList ∧
      chunkList 3 [] = [] ∧
      ([] : List (List Char)).flatten = []) :=
  ⟨by decide, C5_chunk_recombine_lossless 3 "abcdefg".toList (by decide)⟩

/-- C6: for every text `T` and chunk size `S > 0`, the chunker produces
exactly `ceil(len(T)/S)` chunks (`0` for empty `T` since then the numerator
`len(T)+S-1` is below `S`), the `i`-th chunk is the contiguous slice
`T[i*S : i*S+S]`, the chunks cover `T` exactly once in order, every chunk
except the last has length exactly `S`, and every chunk (in particular the
last) is non-empty of length at most `S`. -/
theorem C6_chunker_shape (S : Nat) (text : List Char) (hS : 0 < S) :
    (chunkList S text).length = (text.length + S - 1) / S ∧
    (text = [] → chunkList S text = []) ∧
    (∀ i, ∀ hi : i < (chunkList S text).length,
      (chunkList S text).get ⟨i, hi⟩ = (text.drop (i * S)).take S) ∧
    (∀ i, ∀ hi : i < (chunkList S text).length, i + 1 < (chunkList S text).length →
      ((chunkList S text).get ⟨i, hi⟩).length = S) ∧
    (∀ i, ∀ hi : i < (chunkList S text).length,
      ((chunkList S text).get ⟨i, hi⟩).length ≤ S ∧ (chunkList S text).get ⟨i, hi⟩ ≠ []) ∧
    (chunkList S text).flatten = text := by
  refine ⟨chunkList_length S text, ?_, ?_, ?_, ?_,
    chunkList_flatten_aux S hS text.length text le_rfl⟩
  · intro he
    rw [he]
    exact chunkList_nil S hS
  · intro i hi
    exact chunkList_get S text i hi
  · intro i hi hnext
    rw [chunkList_get S text i hi, List.length_take, List.length_drop]
    have h := chunkList_index_add_le S text hS i hnext
    generalize i * S = p at h ⊢
    omega
  · intro i hi
    rw [chunkList_get S text i hi]
    have h := chunkList_index_lt S text hS i hi
    constructor
    · rw [List.length_take]
      exact Nat.min_le_left _ _
    · apply List.length_pos.mp
      rw [List.length_take, List.length_drop]
      generalize i * S = p at h ⊢
      omega

theorem C6_witness :
    0 < 3 ∧
    ((chunkList 3 "abcdefgh".toList).length = ("abcdefgh".toList.length + 3 - 1) / 3 ∧
      ("abcdefgh".toList = [] → chunkList 3 "abcdefgh".toList = []) ∧
      (∀ i, ∀ hi : i < (chunkList 3 "abcdefgh".toList).length,
        (chunkList 3 "abcdefgh".toList).get ⟨i, hi⟩ = ("abcdefgh".toList.drop (i * 3)).take 3) ∧
      (∀ i, ∀ hi : i < (chunkList 3 "abcdefgh".toList).length,
          i + 1 < (chunkList 3 "abcdefgh".toList).length →
        ((chunkList 3 "abcdefgh".toList).get ⟨i, hi⟩).length = 3) ∧
      (∀ i, ∀ hi : i < (chunkList 3 "abcdefgh".toList).length,
        ((chunkList 3 "abcdefgh".toList).get ⟨i, hi⟩).length ≤ 3 ∧
          (chunkList 3 "abcdefgh".toList).get ⟨i, hi⟩ ≠ []) ∧
      (chunkList 3 "abcdefgh".toList).flatten = "abcdefgh".toList) :=
  ⟨by decide, C6_chunker_shape 3 "abcdefgh".toList (by decide)⟩

/-- C8: for every readable input video, `blur_faces` produces an output with
exactly as many frames as the input (one frame written per frame read) and
the same width, height and frames-per-second value. -/
theorem C8_video_properties_preserved (detect : Detector) (blurOp : BlurOp) (v : InputVideo)
    (h : v.opens = true) :
    ∃ out, blur_faces detect blurOp v = some out ∧
      out.frames.length = v.frames.length ∧
      out.width = v.width ∧ out.height = v.height ∧ out.fps = v.fps := by
  refine ⟨⟨v.width, v.height, v.fps, v.frames.map (processFrame detect blurOp)⟩, ?_, ?_, rfl, rfl, rfl⟩
  · rw [blur_faces, if_pos h]
  · exact List.length_map _ _

theorem C8_witness :
    cGoodVideo.opens = true ∧
    (∃ out, blur_faces cDetector cBlurOp cGoodVideo = some out ∧
      out.frames.length = cGoodVideo.frames.length ∧
      out.width = cGoodVideo.width ∧ out.height = cGoodVideo.height ∧ out.fps = cGoodVideo.fps) :=
  ⟨rfl, C8_video_properties_preserved cDetector cBlurOp cGoodVideo rfl⟩

/-- C9: for every frame on which the detector returns zero regions, the
obfuscation step is the identity: the frame written out is identical to the
frame read. -/
theorem C9_no_region_identity (detect : Detector) (blurOp : BlurOp) (f : Frame)
    (h : detect f = []) : processFrame detect blurOp f = f := by
  rw [processFrame, h, List.foldl_nil]

theorem C9_witness :
    cDetector [7, 8, 9] = [] ∧ processFrame cDetector cBlurOp [7, 8, 9] = [7, 8, 9] :=
  ⟨rfl, C9_no_region_identity cDetector cBlurOp [7, 8, 9] rfl⟩

/-- C10: `redact_phi` is total with whole-document fail-open granularity: if
the collaborator raises on any chunk of the text, the entire original text is
returned unchanged (including chunks redacted before the failure), and for an
always-succeeding collaborator the result is the concatenation of the
per-chunk redactions.  (Totality is intrinsic: the embedding returns a plain
`List Char`, with no error arm, for every oracle and text.) -/
theorem C10_redact_phi_whole_document_fail_open (o : RedactOracle)
    (f : List Char → List Char) (text ctext : List Char)
    (hmem : ctext ∈ chunkList CHUNK_SIZE text) (hfail : ∃ e, o ctext = .error e) :
    redact_phi o text = text ∧
    redact_phi (fun c => .ok (f c)) text = ((chunkList CHUNK_SIZE text).map f).flatten := by
  constructor
  · rcases exceptMapM_error o (chunkList CHUNK_SIZE text) ⟨ctext, hmem, hfail⟩ with ⟨e, he⟩
    rw [redact_phi_def, he]
  · rw [redact_phi_def, exceptMapM_ok f]

theorem C10_witness :
    (['b'] ∈ chunkList CHUNK_SIZE ['b'] ∧ cRedactOracle ['b'] = .error ()) ∧
    (redact_phi cRedactOracle ['b'] = ['b'] ∧
      redact_phi (fun c => .ok (id c)) ['b'] = ((chunkList CHUNK_SIZE ['b']).map id).flatten) :=
  ⟨⟨by decide, cRedactOracle_chunk1⟩,
    C10_redact_phi_whole_document_fail_open cRedactOracle id ['b'] ['b'] (by decide)
      ⟨(), cRedactOracle_chunk1⟩⟩

/-- C1 counterexample: `cRedactText` has exactly two chunks, the collaborator
`cRedactOracle` fails on the second chunk `['b']` only (it redacts the first
chunk to `'X'`s), yet `redact_phi` returns the whole original text rather
than the per-chunk-substitution output `replicate 5000 'X' ++ ['b']`
predicted by the claim — so the result also differs from the all-success
output inside chunk 0's span, not only within chunk 1's. -/
theorem C1_counterexample :
    chunkList CHUNK_SIZE cRedactText = [List.replicate 5000 'a', ['b']] ∧
    cRedactOracle (List.replicate 5000 'a') = .ok (List.replicate 5000 'X') ∧
    cRedactOracle ['b'] = .error () ∧
    redact_phi cRedactOracle cRedactText = cRedactText ∧
    redact_phi cRedactOracle cRedactText ≠ List.replicate 5000 'X' ++ ['b'] := by
  have hm : (chunkList CHUNK_SIZE cRedactText).mapM cRedactOracle = .error () := by
    rw [cRedactText_chunks, List.mapM_cons, cRedactOracle_chunk0, List.mapM_cons,
      cRedactOracle_chunk1]
    rfl
  have hred : redact_phi cRedactOracle cRedactText = cRedactText := by
    rw [redact_phi_def, hm]
  refine ⟨cRedactText_chunks, cRedactOracle_chunk0, cRedactOracle_chunk1, hred, ?_⟩
  rw [hred, cRedactText]
  intro h
  rw [show List.replicate 5000 'a' = 'a' :: List.replicate 4999 'a' from rfl,
    show List.replicate 5000 'X' = 'X' :: List.replicate 4999 'X' from rfl,
    List.cons_append, List.cons_append, List.cons_eq_cons] at h
  exact absurd h.1 (by decide)

/-- C1 amended: when the redaction collaborator fails for a chunk of the
input, the failure is caught without aborting the stage, but the substitution
is whole-document rather than per-chunk: `redact_phi` returns the entire
original text, reverting even chunks that had already been redacted
successfully. -/
theorem C1_failed_chunk_reverts_whole_text (o : RedactOracle) (text c : List Char)
    (hmem : c ∈ chunkList CHUNK_SIZE text) (hfail : ∃ e, o c = .error e) :
    redact_phi o text = text := by
  rcases exceptMapM_error o (chunkList CHUNK_SIZE text) ⟨c, hmem, hfail⟩ with ⟨e, he⟩
  rw [redact_phi_def, he]

theorem C1_witness :
    (['b'] ∈ chunkList CHUNK_SIZE ['b'] ∧ cRedactOracle ['b'] = .error ()) ∧
    redact_phi cRedactOracle ['b'] = ['b'] :=
  ⟨⟨by decide, cRedactOracle_chunk1⟩,
    C1_failed_chunk_reverts_whole_text cRedactOracle ['b'] ['b'] (by decide) ⟨(), cRedactOracle_chunk1⟩⟩

/-- C7: for a job polled as `Running, Running, Succeeded` whose manifest holds
a `"Transcription"` entry with shape-A phrases, `wait_for_transcript` returns
exactly the phrases' `display` fields in their original order, joined by
single spaces. -/
theorem C7_shapeA_transcript_extraction (ds : List (List Char)) :
    wait_for_transcript
        (some ⟨[.running, .running, .succeeded],
          [⟨transcriptionKind, ⟨some (ds.map mkShapeA)⟩⟩]⟩) =
      .result (some (joinSpaces ds)) := by
  show (match batchExtract ⟨some (ds.map mkShapeA)⟩ with
        | .ok t => WaitResult.result (some t)
        | .error c => WaitResult.crash c) = .result (some (joinSpaces ds))
  rw [batchExtract_shapeA]

/-- C4 counterexample: for a shape-B manifest (nested best-candidate list),
the recovery-script parser extracts the text, but the batch controller's
`wait_for_transcript` — the Transcription Job Controller — does not tolerate
it: it crashes with an uncaught `KeyError` instead of returning the extracted
text, so the controller does not tolerate both result shapes. -/
theorem C4_counterexample :
    wait_for_transcript (some ⟨[.running, .running, .succeeded], [cShapeBFile]⟩) =
        .crash .keyError ∧
    recoverParse cShapeBFile.content = .ok (some "hello".toList) := by
  constructor
  · decide
  · rfl

/-- C4 amended: only the recovery script's parser tolerates the two result
shapes — it returns the joined `display` texts for shape A, the joined
best-candidate texts for shape B, and bails out (an early `return`, reported
as an unknown structure) rather than returning empty or guessed text when the
first phrase matches neither shape or the key is missing entirely.  The batch
controller itself handles only shape A (see the counterexample). -/
theorem C4_recover_parser_two_shapes (ds : List (List Char)) (rest : List Phrase) :
    recoverParse ⟨some (ds.map mkShapeA)⟩ = .ok (some (joinSpaces ds)) ∧
    recoverParse ⟨some (ds.map mkShapeB)⟩ = .ok (some (joinSpaces ds)) ∧
    recoverParse ⟨some (unknownPhrase :: rest)⟩ = .ok none ∧
    recoverParse ⟨none⟩ = .ok none := by
  refine ⟨?_, ?_, rfl, rfl⟩
  · cases ds with
    | nil => rfl
    | cons d t =>
      show (match (mkShapeA d :: t.map mkShapeA).mapM extract_display with
            | .ok ds2 => (Except.ok (some (joinSpaces ds2)) : Except Crash (Option (List Char)))
            | .error c => .error c) = .ok (some (joinSpaces (d :: t)))
      rw [show mkShapeA d :: t.map mkShapeA = (d :: t).map mkShapeA from rfl,
        mapM_extract_display_shapeA]
  · cases ds with
    | nil => rfl
    | cons d t =>
      show (match (mkShapeB d :: t.map mkShapeB).mapM extract_nbest_display with
            | .ok ds2 => (Except.ok (some (joinSpaces ds2)) : Except Crash (Option (List Char)))
            | .error c => .error c) = .ok (some (joinSpaces (d :: t)))
      rw [show mkShapeB d :: t.map mkShapeB = (d :: t).map mkShapeB from rfl,
        mapM_extract_nbest_shapeB]

/-- Unfolded form of `pipeline_main`, for rewriting. -/
theorem pipeline_main_def (env : PipelineEnv) :
    pipeline_main env =
      if env.credsOk = false then ⟨.earlyReturn, false, none, none, none, none⟩
      else
        match env.acquire with
        | none => ⟨.earlyReturn, false, none, none, none, none⟩
        | some video =>
          let job_url : Option JobRemote := if env.submitOk then some env.job else none
          let blurred := blur_faces env.detect env.blurOp video
          match wait_for_transcript job_url with
          | .crash c => ⟨.crashed c, job_url.isSome, none, none, blurred, none⟩
          | .hang => ⟨.hung, true, none, none, blurred, none⟩
          | .result t =>
            match t with
            | none => ⟨.completed, true, none, none, blurred, ffmpeg_merge blurred⟩
            | some tx =>
              if tx.isEmpty then ⟨.completed, true, none, none, blurred, ffmpeg_merge blurred⟩
              else
                ⟨.completed, true, some tx, some (redact_phi env.redactOracle tx), blurred,
                  ffmpeg_merge blurred⟩ := rfl

/-- C2 counterexample: with credentials present, acquisition succeeding, a
video that cannot be opened, and a transcription job that submits and
succeeds, the run does not abort: polling happens, the transcript artifacts
are produced, and the run completes with no fatal error — only the video
artifacts are absent. -/
theorem C2_counterexample :
    pipeline_main cEnvVideoFail =
      ⟨.completed, true, some "hi".toList, some "hi".toList, none, none⟩ ∧
    (pipeline_main cEnvVideoFail).polled = true ∧
    (pipeline_main cEnvVideoFail).outcome = .completed ∧
    (pipeline_main cEnvVideoFail).originalTranscript ≠ none := by
  decide

/-- C2 amended: when the input video cannot be opened, `blur_faces` reports
the failure by returning `None` and no blurred or merged video artifact is
produced, but the coordinator does not abort: the transcription stage is
still polled, the run is not failed, and when polling yields a (truthy)
transcript the transcript artifacts are still written. -/
theorem C2_video_open_failure_not_fatal (env : PipelineEnv) (video : InputVideo)
    (t : Option (List Char)) (hc : env.credsOk = true) (ha : env.acquire = some video)
    (ho : video.opens = false) (hs : env.submitOk = true)
    (hw : wait_for_transcript (some env.job) = .result t) :
    (pipeline_main env).outcome = .completed ∧
    (pipeline_main env).polled = true ∧
    (pipeline_main env).blurredSilent = none ∧
    (pipeline_main env).finalVideo = none ∧
    (∀ tx, t = some tx → tx.isEmpty = false →
      (pipeline_main env).originalTranscript = some tx ∧
      (pipeline_main env).redactedTranscript = some (redact_phi env.redactOracle tx)) := by
  have hblur : blur_faces env.detect env.blurOp video = none := by
    rw [blur_faces, ho]
    rfl
  cases t with
  | none =>
    simp [pipeline_main_def, hc, ha, hs, hw, hblur, ffmpeg_merge]
  | some tx =>
    by_cases he : tx.isEmpty
    · simp [pipeline_main_def, hc, ha, hs, hw, hblur, ffmpeg_merge, he]
      simpa using he
    · simp [pipeline_main_def, hc, ha, hs, hw, hblur, ffmpeg_merge, he]

theorem C2_witness :
    (cEnvVideoFail.credsOk = true ∧ cEnvVideoFail.acquire = some cBadVideo ∧
      cBadVideo.opens = false ∧ cEnvVideoFail.submitOk = true ∧
      wait_for_transcript (some cEnvVideoFail.job) = .result (some "hi".toList)) ∧
    ((pipeline_main cEnvVideoFail).outcome = .completed ∧
      (pipeline_main cEnvVideoFail).polled = true ∧
      (pipeline_main cEnvVideoFail).blurredSilent = none ∧
      (pipeline_main cEnvVideoFail).finalVideo = none ∧
      (∀ tx, some "hi".toList = some tx → tx.isEmpty = false →
        (pipeline_main cEnvVideoFail).originalTranscript = some tx ∧
        (pipeline_main cEnvVideoFail).redactedTranscript =
          some (redact_phi cEnvVideoFail.redactOracle tx))) :=
  ⟨⟨rfl, rfl, rfl, rfl, by decide⟩,
    C2_video_open_failure_not_fatal cEnvVideoFail cBadVideo (some "hi".toList)
      rfl rfl rfl rfl (by decide)⟩

/-- C3: evaluating the coordinator at the failing input.  Acquisition and
video redaction succeed and transcription submission fails, so `job_url` is
`None`; instead of completing with a recoverable submission error, the run
crashes with the uncaught `MissingSchema` exception raised by
`requests.get(None)` inside `wait_for_transcript`.  The blurred silent video
artifact exists at the time of the crash, but no transcripts and no final
merged artifact are produced. -/
theorem C3_submit_failure_crashes_run :
    pipeline_main cEnvSubmitFail =
      ⟨.crashed .missingSchema, false, none, none,
        some ⟨640, 480, 30, [[0], [1]]⟩, none⟩ := by
  decide

end DeidPoc
